import Mathlib

/-!
Verification of the mikino binary front-end (`src/main.rs`, `src/mode.rs`).

The development shallowly embeds the control and data flow of the binary: the
CLI mode construction (`mode.rs`), the run dispatcher `Run::run`, the verdict
reporting of `Check::run`, the BMC driver loop of `Check::bmc`, the integer
validator used for `--bmc_max`, and the verbosity computation of `Run::new`.

The checkers themselves (`check::Base`, `check::Step`, `check::Bmc`, the
result types `BaseRes`/`StepRes`/`CheckRes` and `merge_base_with_step`) live
in the external `mikino_api` crate whose source is not part of this
repository; those are modelled from the specification (spec.md §3, §4.5,
§4.6) and carry a `Modelled from the spec:` doc comment.  External effects
(filesystem, parser, solver sessions) are abstracted as an oracle `World`,
and the observable behaviour of a run is a result paired with a trace of
`RunAct`s.
-/

/-- Modelled from the Rust standard library: `char::is_numeric` holds exactly
for the characters with the Unicode `Numeric` property.  The model keeps the
ASCII digits plus, as representatives of the non-ASCII characters that
`char::is_numeric` also accepts, the Arabic-Indic digits U+0660-U+0669.  The
theorems below depend only on the ASCII-digit part, so this
under-approximation is sound for them. -/
def Rust.is_numeric (c : Char) : Bool :=
  c.isDigit || (0x660 ≤ c.toNat && c.toNat ≤ 0x669)

/-- Modelled from the Rust standard library: `usize::from_str_radix(s, 10)`.
An optional leading `+` is allowed; a leading `-` is rejected for the
unsigned type; the remaining characters must be a non-empty sequence of ASCII
decimal digits; the value must fit in `usize` (64-bit on the reference
target), otherwise the parse fails with an overflow error.  `none` models
`Err(ParseIntError)`. -/
def from_str_radix10 (s : String) : Option Nat :=
  let digits : Option (List Char) :=
    match s.data with
    | '+' :: rest => some rest
    | '-' :: _ => none
    | l => some l
  match digits with
  | none => none
  | some [] => none
  | some l =>
    if l.all Char.isDigit then
      let n := l.foldl (fun acc c => acc * 10 + (c.toNat - '0'.toNat)) 0
      if n < 2 ^ 64 then some n else none
    else none

/-- Error taxonomy of the tool (spec.md §7; the kinds surfaced in
`src/main.rs` through `pretty_error` and the `chain_err` calls).  `context`
models `error-chain`'s `chain_err`: a message wrapped around an inner
error. -/
inductive Error
  | io (msg : String)
  | parse (row col : Nat) (line msg : String)
  | solverSpawn (msg : String)
  | solverProtocol (msg : String)
  | internal (msg : String)
  | context (msg : String) (inner : Error)
deriving DecidableEq

/-- Modelled from the spec: a counterexample (spec.md §3) is an ordered
sequence of (step, assignment) pairs; assignments map variable ids to literal
values, kept as strings since no claim inspects them. -/
structure Cex where
  trace : List (Nat × List (String × String))
deriving DecidableEq

/-- Modelled from the spec: `CheckRes` from `mikino_api::check` (spec.md §3,
CheckResult): `okay` is the list of PO names not (yet) falsified, `cexs` maps
falsified PO names to counterexamples.  `BaseRes` and `StepRes` are wrappers
around `CheckRes` in the API and are modelled by `CheckRes` itself. -/
structure CheckRes where
  okay : List String
  cexs : List (String × Cex)
deriving DecidableEq

/-- Modelled from the spec: `has_falsifications` holds when the checker
recorded at least one counterexample (spec.md §3: falsified POs are exactly
the keys of `cexs`). -/
def CheckRes.has_falsifications (r : CheckRes) : Bool :=
  !r.cexs.isEmpty

/-- Modelled from the spec: `all_falsified` holds when no PO is left open,
i.e. the `okay` set is empty (spec.md §3 invariant: `okay` and the keys of
`cexs` partition the PO set). -/
def CheckRes.all_falsified (r : CheckRes) : Bool :=
  r.okay.isEmpty

/-- The full PO set a result ranges over: `okay` plus the falsified POs
(spec.md §3 invariant). -/
def CheckRes.poNames (r : CheckRes) : List String :=
  r.okay ++ r.cexs.map Prod.fst

/-- Modelled from the spec: the parsed transition system (spec.md §3).  Only
the ordered list of PO names is kept: declarations, init and trans play no
role in the CLI-level claims. -/
structure Sys where
  pos : List String
deriving DecidableEq

/-- Modelled from the spec: `CheckRes::new(&sys)` builds a fresh result in
which every PO of the system is still open and no counterexample is
recorded. -/
def CheckRes.new (sys : Sys) : CheckRes :=
  ⟨sys.pos, []⟩

/-- Modelled from the spec: `BaseRes::merge_base_with_step` (spec.md §4.6).
POs falsified by Base stay falsified with their Base counterexamples; POs
Base-OK and Step-OK are removed from consideration; POs Base-OK and
Step-falsified become the `okay` set of the merged result, which seeds BMC.
If the two results do not range over the same PO set the merge fails with an
`Internal` error. -/
def CheckRes.merge_base_with_step (base step : CheckRes) : Except Error CheckRes :=
  if base.poNames.all (fun po => decide (po ∈ step.poNames))
      && step.poNames.all (fun po => decide (po ∈ base.poNames)) then
    Except.ok
      ⟨base.okay.filter (fun po => decide (po ∈ step.cexs.map Prod.fst)), base.cexs⟩
  else
    Except.error (Error.internal "base and step results do not range over the same POs")

/-- Run modes (`src/mode.rs`, `enum Mode`).  The `check` variant carries the
input file, the optional SMT log directory, and the `induction`, `bmc` and
`bmc_max` switches.  The `script` variant of the source is irrelevant to the
claims and omitted; `demo` keeps only its target. -/
inductive Mode
  | check (input : String) (smt_log : Option String) (ind : Bool) (bmcFlag : Bool)
      (bmc_max : Option Nat)
  | demo (target : String)
  | parse (input : String)
deriving DecidableEq

/-- Clap matches of the `check` subcommand (`src/mode.rs`): the required
system file, the optional `--smt_log` value, whether `--bmc` is present, and
the optional raw `--bmc_max` value (already validated by clap through
`validate_int`). -/
structure CheckMatches where
  sys : String
  smt_log : Option String
  bmc_flag : Bool
  bmc_max_val : Option String
deriving DecidableEq

/-- Clap matches of the `bmc` subcommand (`src/mode.rs`): the required system
file, the optional `--smt_log` value and the optional raw `--bmc_max`
value. -/
structure BmcMatches where
  sys : String
  smt_log : Option String
  bmc_max_val : Option String
deriving DecidableEq

/-- Loop body of `cla::validate_int` (`src/mode.rs` lines 272-292): walks the
characters with their indices; the first character must be numeric and not
`'0'`, every later character must be numeric; any offending character aborts
with the `expected integer` message. -/
def validate_int_go (s : String) : Nat → List Char → Except String Unit
  | _, [] => Except.ok ()
  | idx, c :: rest =>
    if idx = 0 then
      if !(Rust.is_numeric c) || c = '0' then
        Except.error ("expected integer, found `" ++ s ++ "`")
      else
        validate_int_go s (idx + 1) rest
    else
      if !(Rust.is_numeric c) then
        Except.error ("expected integer, found `" ++ s ++ "`")
      else
        validate_int_go s (idx + 1) rest

/-- Embeds `cla::validate_int` (`src/mode.rs` lines 272-292; the copy in
`src/main.rs` lines 394-414 has the same body modulo the argument type):
the string `"0"` is accepted outright, any other string goes through the
character loop, and a string whose loop finishes, including the empty string,
is accepted. -/
def cla.validate_int (s : String) : Except String Unit :=
  if s = "0" then Except.ok () else validate_int_go s 0 s.data

/-- Embeds `cla::get_bmc_max` (`src/mode.rs` lines 95-101) on the raw
`--bmc_max` value: absent value yields `None`; a present value is parsed with
`usize::from_str_radix(val, 10)` whose failure hits the `expect`, modelled as
the `Except.error` carrying the panic message.  The `if_present_do` callback
is inlined at the call sites (`try_check` sets its `bmc` flag, `try_bmc`
passes a no-op). -/
def cla.get_bmc_max (val : Option String) : Except String (Option Nat) :=
  match val with
  | none => Except.ok none
  | some v =>
    match from_str_radix10 v with
    | some n => Except.ok (some n)
    | none => Except.error ("[clap] unexpected value for BMC max: `" ++ v ++ "`")

/-- Embeds `cla::try_check` (`src/mode.rs` lines 156-172): builds
`Mode::Check` with `induction = true`; `bmc` starts as the presence of the
`--bmc` flag and is forced to `true` by `get_bmc_max`'s callback whenever a
`--bmc_max` value is present; the subcommand-level `--smt_log` takes
precedence over the top-level one. -/
def cla.try_check (smt_log : Option String) (m : CheckMatches) : Except String Mode :=
  let input := m.sys
  let log := match m.smt_log with | some l => some l | none => smt_log
  match cla.get_bmc_max m.bmc_max_val with
  | Except.error e => Except.error e
  | Except.ok bmc_max =>
    let bmc := m.bmc_flag || m.bmc_max_val.isSome
    Except.ok (Mode.check input log true bmc bmc_max)

/-- Embeds `cla::try_bmc` (`src/mode.rs` lines 241-255): builds `Mode::Check`
with `induction = false` and `bmc = true`; the `get_bmc_max` callback is a
no-op. -/
def cla.try_bmc (smt_log : Option String) (m : BmcMatches) : Except String Mode :=
  match cla.get_bmc_max m.bmc_max_val with
  | Except.error e => Except.error e
  | Except.ok bmc_max =>
    let log := match m.smt_log with | some l => some l | none => smt_log
    Except.ok (Mode.check m.sys log false true bmc_max)

/-- Embeds the verbosity computation of `Run::new` (`src/main.rs` lines
465-479): `verb` is `(occurrences of -v + 1) % 4`; `-q` overrides it to `0`;
otherwise a clamp caps values above `4` at `4`. -/
def Run.new_verb (vOcc : Nat) (quiet : Bool) : Nat :=
  let verb := (vOcc + 1) % 4
  if quiet then 0 else if verb > 4 then 4 else verb

/-- Embeds the verdict reporting of `Check::run` (`src/main.rs` lines
116-144): the `system is ...` line printed after the induction attempt, as a
function of the two results.  `none` corresponds to no branch firing (the
source has no final `else`). -/
def Check.runVerdict (base_res step_res : CheckRes) : Option String :=
  if !base_res.has_falsifications && !step_res.has_falsifications then some "safe"
  else if base_res.has_falsifications then some "unsafe"
  else if step_res.has_falsifications then some "might be unsafe"
  else none

/-- Embeds the seed computation of `Check::bmc` (`src/main.rs` lines
174-180): with a step result, merge it into the base result (chaining the
merge-context message on failure); without one, the base result itself (the
source's `base.as_inner().clone().into()`) is the seed. -/
def Check.bmcSeed (base : CheckRes) (step : Option CheckRes) : Except Error CheckRes :=
  match step with
  | some s =>
    match base.merge_base_with_step s with
    | Except.ok r => Except.ok r
    | Except.error e =>
      Except.error (Error.context "during base/step result merge for BMC" e)
  | none => Except.ok base

/-- Modelled from the spec: the BMC checker state (spec.md §4.5): the live
result (open POs and found counterexamples) and the current depth, which is
also the step index the next check runs at. -/
structure Bmc where
  res : CheckRes
  depth : Nat
deriving DecidableEq

/-- Modelled from the spec: `Bmc::is_done` holds when no PO is left open
(spec.md §3 lifecycle); the max-depth bound is enforced by the driver loop in
`Check::bmc`, not by the `Bmc` value, which does not know the bound. -/
def Bmc.is_done (b : Bmc) : Bool :=
  b.res.okay.isEmpty

/-- Modelled from the spec: `Bmc::next_check_step` is the depth the next
check will run at (spec.md §4.5). -/
def Bmc.next_check_step (b : Bmc) : Nat :=
  b.depth

/-- Modelled from the spec: one `Bmc::next_check` call (spec.md §4.5).  The
solver's answer is abstracted by `oracle`, giving the POs falsified at each
depth with their counterexamples: those among the open POs move from `okay`
to `cexs`; the depth advances by one in both the sat and the unsat case; the
returned flag tells whether new falsifications were found. -/
def Bmc.next_check (oracle : Nat → List (String × Cex)) (b : Bmc) : Bmc × Bool :=
  let found := (oracle b.depth).filter (fun pc => decide (pc.1 ∈ b.res.okay))
  let newOkay := b.res.okay.filter (fun po => !(oracle b.depth).any (fun pc => pc.1 == po))
  (⟨⟨newOkay, b.res.cexs ++ found⟩, b.depth + 1⟩, !found.isEmpty)

/-- Embeds the guard of the BMC driver loop (`src/main.rs` line 199):
`!bmc.is_done() && max.map(|max| max >= bmc.next_check_step()).unwrap_or(true)`. -/
def Check.bmcLoopGuard (max : Option Nat) (b : Bmc) : Bool :=
  !b.is_done &&
    (match max with
     | some m => decide (m ≥ b.next_check_step)
     | none => true)

/-- Embeds the BMC driver loop of `Check::bmc` (`src/main.rs` lines 199-228)
as a fuelled iteration: while the guard holds, run `next_check` and record
the depth the check ran at.  The source loop is unbounded; the theorems below
show that when `max` is `some m`, fuel `m + 2` (from depth 0) already reaches
a state where the guard is false, so the fuelled function computes the whole
run of the source loop. -/
def Check.bmcLoop (oracle : Nat → List (String × Cex)) (max : Option Nat) :
    Nat → Bmc → Bmc × List Nat
  | 0, b => (b, [])
  | fuel + 1, b =>
    if Check.bmcLoopGuard max b then
      ((Check.bmcLoop oracle max fuel (Bmc.next_check oracle b).1).1,
        b.next_check_step :: (Check.bmcLoop oracle max fuel (Bmc.next_check oracle b).1).2)
    else (b, [])

/-- Observable steps of a run, used to state which effects `Run::run`
performs and in which order. -/
inductive RunAct
  | readFile (f : String)
  | parseSys
  | createDir (d : String)
  | newSolverSession (checker : String)
  | report (msg : String)
  | bmcRun (seed : CheckRes)
  | writeDemo (target : String)
deriving DecidableEq

/-- Oracle for the external world: outcomes of filesystem operations, of the
`mikino_api` parser, and of the solver-backed checkers.  Each field abstracts
one fallible external call made by `src/main.rs`. -/
structure World where
  pathExists : String → Bool
  createDirAll : String → Except Error Unit
  readFile : String → Except Error String
  parseSys : String → Except Error Sys
  baseCheck : Sys → Except Error CheckRes
  stepCheck : Sys → Except Error CheckRes
  bmcRun : Option Nat → CheckRes → Except Error CheckRes
  writeDemo : String → Except Error Unit

/-- Sequencing of two effectful steps, mirroring Rust's `?` operator while
accumulating the performed actions: if the first step failed, its error and
its actions are the result and the continuation never runs; otherwise the
continuation's result is appended after the first step's actions. -/
def seqA {α β : Type} (x : Except Error α × List RunAct)
    (f : α → Except Error β × List RunAct) : Except Error β × List RunAct :=
  match x.1 with
  | Except.error e => (Except.error e, x.2)
  | Except.ok v => ((f v).1, x.2 ++ (f v).2)

/-- A single external call lifted to a step: its result plus the one action
that was performed. -/
def liftE {α : Type} (r : Except Error α) (act : RunAct) :
    Except Error α × List RunAct :=
  (r, [act])

/-- A single external call whose failure is wrapped in a `chain_err` context
message, plus the one action that was performed. -/
def liftC {α : Type} (r : Except Error α) (ctx : String) (act : RunAct) :
    Except Error α × List RunAct :=
  (match r with
   | Except.error e => Except.error (Error.context ctx e)
   | Except.ok v => Except.ok v, [act])

/-- Embeds `Check::new` (`src/main.rs` lines 49-73): open and read the input
file (any failure propagates as an I/O error), then parse it (any failure
propagates as a parse error); on success the parsed system is returned.  The
verbose pretty-printing is omitted. -/
def Check.new (w : World) (input : String) : Except Error Sys × List RunAct :=
  seqA (liftE (w.readFile input) (RunAct.readFile input)) (fun txt =>
    liftE (w.parseSys txt) RunAct.parseSys)

/-- Embeds `Check::run` (`src/main.rs` lines 76-171): run the base check then
the step check, each creating its own solver session, then print the verdict
line computed by `Check.runVerdict`.  The counterexample listings are
omitted; error contexts are collapsed to one message per phase. -/
def Check.run (w : World) (sys : Sys) : Except Error (CheckRes × CheckRes) × List RunAct :=
  seqA (liftC (w.baseCheck sys) "during base check" (RunAct.newSolverSession "base"))
    (fun base_res =>
      seqA (liftC (w.stepCheck sys) "during step check" (RunAct.newSolverSession "step"))
        (fun step_res =>
          (Except.ok (base_res, step_res),
            match Check.runVerdict base_res step_res with
            | some msg => [RunAct.report msg]
            | none => [])))

/-- Embeds `Check::bmc` (`src/main.rs` lines 174-274): compute the seed with
`Check.bmcSeed`; if every PO is already falsified return at once without a
solver session; otherwise create the BMC session and run the loop, both
abstracted by the world's `bmcRun` oracle. -/
def Check.bmc (w : World) (max : Option Nat) (base : CheckRes) (step : Option CheckRes) :
    Except Error Unit × List RunAct :=
  match Check.bmcSeed base step with
  | Except.error e => (Except.error e, [])
  | Except.ok bmc_res =>
    if bmc_res.all_falsified then (Except.ok (), [])
    else
      match w.bmcRun max bmc_res with
      | Except.error e =>
        (Except.error e, [RunAct.newSolverSession "bmc", RunAct.bmcRun bmc_res])
      | Except.ok _ =>
        (Except.ok (), [RunAct.newSolverSession "bmc", RunAct.bmcRun bmc_res])

/-- Embeds the SMT-log-directory step of `Run::run` (`src/main.rs` lines
566-572): when a log directory is configured and does not exist, create it
recursively; a creation failure is chained with the context message and
aborts the run. -/
def Run.smtLogStep (w : World) (smt_log : Option String) : Except Error Unit × List RunAct :=
  match smt_log with
  | some d =>
    if w.pathExists d then (Except.ok (), [])
    else
      match w.createDirAll d with
      | Except.ok _ => (Except.ok (), [RunAct.createDir d])
      | Except.error e =>
        (Except.error
          (Error.context ("while recursively creating SMT log directory `" ++ d ++ "`") e),
          [RunAct.createDir d])
  | none => (Except.ok (), [])

/-- Embeds the induction part of `Run::run`'s check branch (`src/main.rs`
lines 574-579): with `induction` set, run `Check::run` and keep both results;
otherwise take a fresh result (every PO open) as base and no step result,
without touching the solver. -/
def Run.inductionStep (w : World) (sys : Sys) (ind : Bool) :
    Except Error (CheckRes × Option CheckRes) × List RunAct :=
  if ind then
    seqA (Check.run w sys) (fun bs => (Except.ok (bs.1, some bs.2), []))
  else (Except.ok (CheckRes.new sys, none), [])

/-- Embeds the `Mode::Check` branch of `Run::run` (`src/main.rs` lines
559-587): SMT log directory handling, then `Check::new`, then the induction
step, then (when the `bmc` switch is set) `Check::bmc`. -/
def Run.checkMode (w : World) (input : String) (smt_log : Option String)
    (ind bmcFlag : Bool) (bmc_max : Option Nat) : Except Error Unit × List RunAct :=
  seqA (Run.smtLogStep w smt_log) (fun _ =>
    seqA (Check.new w input) (fun sys =>
      seqA (Run.inductionStep w sys ind) (fun bs =>
        if bmcFlag then Check.bmc w bmc_max bs.1 bs.2 else (Except.ok (), []))))

/-- Embeds `Run::run` (`src/main.rs` lines 557-594): dispatch on the mode.
`Parse` constructs `Check::new` and returns `Ok` without anything else;
`Demo` writes the demo file. -/
def Run.run (w : World) (mode : Mode) : Except Error Unit × List RunAct :=
  match mode with
  | Mode.check input smt_log ind bmcFlag bmc_max =>
    Run.checkMode w input smt_log ind bmcFlag bmc_max
  | Mode.demo target =>
    match w.writeDemo target with
    | Except.ok _ => (Except.ok (), [RunAct.writeDemo target])
    | Except.error e => (Except.error e, [RunAct.writeDemo target])
  | Mode.parse input =>
    seqA (Check.new w input) (fun _ => (Except.ok (), []))

/-- The messages of an error chain, innermost cause first, matching the
order in which `Run::launch` prints them (`src/main.rs` lines 544-548: each
source is prepended to the accumulated string).  The per-kind rendering of
`pretty_error` is abbreviated to the carried message. -/
def Error.chainMessages : Error → List String
  | Error.context msg e => Error.chainMessages e ++ [msg]
  | Error.io msg => [msg]
  | Error.parse _ _ _ msg => [msg]
  | Error.solverSpawn msg => [msg]
  | Error.solverProtocol msg => [msg]
  | Error.internal msg => [msg]

/-- Embeds `Run::launch` (`src/main.rs` lines 538-554), returning the lines
printed to stdout: nothing extra on success; on failure the `|===| Error`
header, the error chain, and the closing `|===|`.  The `Err` case only
prints: it neither re-raises nor exits the process. -/
def Run.launch (r : Except Error Unit) : List String :=
  match r with
  | Except.ok _ => []
  | Except.error e =>
    "|===| Error" :: (Error.chainMessages e).map (fun l => "| " ++ l) ++ ["|===|"]

/-- Embeds `main` (`src/main.rs` lines 21-23) down to the process exit
status: `main` calls `Run::new().launch()`; `launch` returns `()` on both the
`Ok` and the `Err` path, so `main` returns normally and the Rust runtime
reports exit status `0`, whatever the run result was. -/
def mainExitCode (r : Except Error Unit) : Nat :=
  (fun _ => 0) (Run.launch r)

/-- A world in which every external call succeeds: the input file reads and
parses to a one-PO system, the checkers return all-okay results, directories
already exist. -/
def World.allOk : World where
  pathExists := fun _ => true
  createDirAll := fun _ => Except.ok ()
  readFile := fun _ => Except.ok "demo system text"
  parseSys := fun _ => Except.ok ⟨["p"]⟩
  baseCheck := fun _ => Except.ok ⟨["p"], []⟩
  stepCheck := fun _ => Except.ok ⟨["p"], []⟩
  bmcRun := fun _ r => Except.ok r
  writeDemo := fun _ => Except.ok ()

/-- A world in which the SMT log directory is missing and its recursive
creation fails with an I/O error; everything else succeeds. -/
def World.dirFails : World :=
  { World.allOk with
      pathExists := fun _ => false
      createDirAll := fun _ => Except.error (Error.io "permission denied") }

/-- A world in which the input file reads fine but does not parse. -/
def World.parseFails : World :=
  { World.allOk with
      parseSys := fun _ => Except.error (Error.parse 1 2 "init bad" "unexpected token") }

/-- A world in which the input file cannot be read. -/
def World.readFails : World :=
  { World.allOk with readFile := fun _ => Except.error (Error.io "no such file") }

/-- C10: `Run::new` computes the verbosity as `(occurrences of -v + 1) % 4`,
overridden to `0` by `-q`: with no flags it is `1`, it never exceeds `3`, the
`verb > 4` clamp branch is unreachable (its guard is always false), and three
`-v` flags yield `0`. -/
theorem claim_c10_verbosity :
    Run.new_verb 0 false = 1 ∧
    (∀ vOcc : Nat, ∀ quiet : Bool, Run.new_verb vOcc quiet ≤ 3) ∧
    (∀ vOcc : Nat, decide ((vOcc + 1) % 4 > 4) = false) ∧
    (∀ vOcc : Nat, ∀ quiet : Bool,
      Run.new_verb vOcc quiet = if quiet then 0 else (vOcc + 1) % 4) ∧
    Run.new_verb 3 false = 0 ∧
    (∀ vOcc : Nat, Run.new_verb vOcc true = 0) := by
  have hlt : ∀ v : Nat, (v + 1) % 4 < 4 := fun v => Nat.mod_lt _ (by norm_num)
  refine ⟨rfl, ?_, ?_, ?_, rfl, ?_⟩
  · intro v q
    unfold Run.new_verb
    cases q
    · simp only [Bool.false_eq_true, if_false]
      have := hlt v
      split <;> omega
    · simp
  · intro v
    exact decide_eq_false (by have := hlt v; omega)
  · intro v q
    unfold Run.new_verb
    cases q
    · simp only [Bool.false_eq_true, if_false]
      have := hlt v
      split <;> omega
    · simp
  · intro v
    unfold Run.new_verb
    simp

/-- C8: the claim that every string accepted by `cla::validate_int` parses
with `usize::from_str_radix(-, 10)` is wrong, and the code contradicts its
own `expected integer` contract: the empty string is accepted by the
validator (its character loop runs zero times), yet `from_str_radix` fails on
it, so the `expect` in `cla::get_bmc_max` panics on the clap-validated value
`--bmc_max ""`. -/
theorem claim_c8_get_bmc_max_panic :
    cla.validate_int "" = Except.ok () ∧
    from_str_radix10 "" = none ∧
    cla.get_bmc_max (some "") =
      Except.error "[clap] unexpected value for BMC max: ``" :=
  ⟨rfl, rfl, rfl⟩

/-- C1 counterexample: at a parse error, the claimed non-zero exit status
fails — the process still exits with status `0`, because `Run::launch` only
prints the error and `main` returns normally. -/
theorem claim_c1_cex :
    ¬ mainExitCode (Except.error (Error.parse 0 0 "init: x = 0" "unexpected token")) ≠ 0 :=
  fun h => h rfl

/-- C1 (amended): the process exit status is `0` for every run result:
`0` for verdicts, including unsafe ones, and also `0` for parse, I/O and
solver-protocol failures, since `Run::launch` handles the `Err` case of
`Run::run` by printing the error chain and returning normally, after which
`main` returns. -/
theorem claim_c1_exit_code_always_zero (r : Except Error Unit) : mainExitCode r = 0 :=
  rfl

/-- C2: whenever neither the base result nor the step result has
falsifications, the verdict branch of `Check::run` reports the system
safe. -/
theorem claim_c2_safe_verdict (base_res step_res : CheckRes)
    (hb : base_res.has_falsifications = false)
    (hs : step_res.has_falsifications = false) :
    Check.runVerdict base_res step_res = some "safe" := by
  unfold Check.runVerdict
  rw [hb, hs]
  rfl

/-- Witness for C2 at two concrete all-okay results. -/
theorem claim_c2_safe_verdict_witness :
    Check.runVerdict ⟨["p"], []⟩ ⟨["p"], []⟩ = some "safe" :=
  claim_c2_safe_verdict ⟨["p"], []⟩ ⟨["p"], []⟩ rfl rfl

/-- C9: in the `check` subcommand, a present `--bmc_max` value forces
`bmc = true` in the produced `Mode::Check` even when the `--bmc` flag is
absent, because `get_bmc_max`'s `if_present_do` callback sets the flag. -/
theorem claim_c9_bmc_max_implies_bmc (t : Option String) (m : CheckMatches) (mode : Mode)
    (h : cla.try_check t m = Except.ok mode) (hp : m.bmc_max_val.isSome = true) :
    ∃ l bm, mode = Mode.check m.sys l true true bm := by
  unfold cla.try_check at h
  cases hg : cla.get_bmc_max m.bmc_max_val with
  | error e => rw [hg] at h; cases h
  | ok bm =>
    rw [hg] at h
    simp only [Except.ok.injEq] at h
    refine ⟨(match m.smt_log with | some l => some l | none => t), bm, ?_⟩
    rw [← h, hp]
    simp

/-- Witness for C9: `--bmc_max 7` without `--bmc` still turns BMC on. -/
theorem claim_c9_bmc_max_implies_bmc_witness :
    ∃ l bm, Mode.check "sys.mkn" none true true (some 7) = Mode.check "sys.mkn" l true true bm :=
  claim_c9_bmc_max_implies_bmc none ⟨"sys.mkn", none, false, some "7"⟩
    (Mode.check "sys.mkn" none true true (some 7)) rfl rfl

/-- One `next_check` advances the depth by exactly one. -/
theorem Bmc.next_check_depth (oracle : Nat → List (String × Cex)) (b : Bmc) :
    ((Bmc.next_check oracle b).1).depth = b.depth + 1 :=
  rfl

/-- A true loop guard with a `some` bound means the bound allows the current
depth. -/
theorem Check.bmcLoopGuard_le (m : Nat) (b : Bmc)
    (hg : Check.bmcLoopGuard (some m) b = true) : b.depth ≤ m := by
  unfold Check.bmcLoopGuard at hg
  simp only [Bool.and_eq_true] at hg
  exact of_decide_eq_true hg.2

/-- Every depth the fuelled BMC loop checks at is within the `some m`
bound. -/
theorem Check.bmcLoop_depths_le (oracle : Nat → List (String × Cex)) (m : Nat) :
    ∀ fuel b, ∀ d ∈ (Check.bmcLoop oracle (some m) fuel b).2, d ≤ m := by
  intro fuel
  induction fuel with
  | zero =>
    intro b d hd
    simp [Check.bmcLoop] at hd
  | succ n ih =>
    intro b d hd
    by_cases hg : Check.bmcLoopGuard (some m) b = true
    · simp only [Check.bmcLoop, hg, if_true] at hd
      rcases List.mem_cons.mp hd with h | h
      · subst h
        exact Check.bmcLoopGuard_le m b hg
      · exact ih _ d h
    · simp [Check.bmcLoop, hg] at hd

/-- With bound `some m`, fuel `m + 2 - depth` suffices: the fuelled loop ends
in a state whose guard is false, i.e. the source's unbounded loop
terminates. -/
theorem Check.bmcLoop_halts (oracle : Nat → List (String × Cex)) (m : Nat) :
    ∀ fuel b, m + 2 ≤ b.depth + fuel →
      Check.bmcLoopGuard (some m) ((Check.bmcLoop oracle (some m) fuel b).1) = false := by
  intro fuel
  induction fuel with
  | zero =>
    intro b h
    simp only [Check.bmcLoop]
    unfold Check.bmcLoopGuard Bmc.next_check_step
    have hnot : ¬ (m ≥ b.depth) := by omega
    simp [decide_eq_false hnot]
  | succ n ih =>
    intro b h
    by_cases hg : Check.bmcLoopGuard (some m) b = true
    · simp only [Check.bmcLoop, hg, if_true]
      exact ih (Bmc.next_check oracle b).1 (by rw [Bmc.next_check_depth]; omega)
    · simp [Check.bmcLoop, hg]

/-- C4: the BMC driver loop of `Check::bmc` halts when the okay set is empty
(`is_done`) or the next check depth exceeds the configured bound: a done
state falsifies the guard for every bound; with bound `some m` every checked
depth is at most `m`; and enough fuel always reaches a state whose guard is
false, so the loop terminates whenever a bound is configured. -/
theorem claim_c4_bmc_loop_bound (oracle : Nat → List (String × Cex))
    (max : Option Nat) (m fuel : Nat) (b : Bmc) :
    (b.is_done = true → Check.bmcLoopGuard max b = false) ∧
    (∀ d ∈ (Check.bmcLoop oracle (some m) fuel b).2, d ≤ m) ∧
    (m + 2 ≤ b.depth + fuel →
      Check.bmcLoopGuard (some m) ((Check.bmcLoop oracle (some m) fuel b).1) = false) := by
  refine ⟨?_, Check.bmcLoop_depths_le oracle m fuel b, Check.bmcLoop_halts oracle m fuel b⟩
  intro hd
  unfold Check.bmcLoopGuard
  rw [hd]
  rfl

/-- Witness for C4: a done state falsifies the guard; with bound `1` the
loop checks depth `0`, and fuel `4` ends with a false guard. -/
theorem claim_c4_bmc_loop_bound_witness :
    Check.bmcLoopGuard (some 1) ⟨⟨[], []⟩, 0⟩ = false ∧
    (0 : Nat) ≤ 1 ∧
    Check.bmcLoopGuard (some 1)
      ((Check.bmcLoop (fun _ => []) (some 1) 4 ⟨⟨["p"], []⟩, 0⟩).1) = false :=
  ⟨(claim_c4_bmc_loop_bound (fun _ => []) (some 1) 1 4 ⟨⟨[], []⟩, 0⟩).1 rfl,
    (claim_c4_bmc_loop_bound (fun _ => []) (some 1) 1 4 ⟨⟨["p"], []⟩, 0⟩).2.1 0 (by decide),
    (claim_c4_bmc_loop_bound (fun _ => []) (some 1) 1 4 ⟨⟨["p"], []⟩, 0⟩).2.2 (by decide)⟩

/-- C3: the verdict branch of `Check::run` treats the two results as a
partition: any base falsification makes the system unsafe; base clean but
step falsified reports `might be unsafe`; and the BMC seed computed through
`merge_base_with_step` keeps exactly the POs that are Base-OK and
Step-falsified in its okay set. -/
theorem claim_c3_verdict_partition (base_res step_res merged : CheckRes) :
    (base_res.has_falsifications = true →
      Check.runVerdict base_res step_res = some "unsafe") ∧
    (base_res.has_falsifications = false → step_res.has_falsifications = true →
      Check.runVerdict base_res step_res = some "might be unsafe") ∧
    (Check.bmcSeed base_res (some step_res) = Except.ok merged →
      ∀ po, po ∈ merged.okay ↔
        po ∈ base_res.okay ∧ po ∈ step_res.cexs.map Prod.fst) := by
  refine ⟨?_, ?_, ?_⟩
  · intro hb
    unfold Check.runVerdict
    rw [hb]
    rfl
  · intro hb hs
    unfold Check.runVerdict
    rw [hb, hs]
    rfl
  · intro h po
    simp only [Check.bmcSeed] at h
    cases hm : CheckRes.merge_base_with_step base_res step_res with
    | error e => rw [hm] at h; cases h
    | ok r =>
      rw [hm] at h
      simp only [Except.ok.injEq] at h
      subst h
      unfold CheckRes.merge_base_with_step at hm
      split at hm
      · simp only [Except.ok.injEq] at hm
        rw [← hm]
        simp [List.mem_filter]
      · cases hm

/-- Witness for C3: all three branches at concrete results; the merged okay
seed keeps the Base-OK, Step-falsified PO `p`. -/
theorem claim_c3_verdict_partition_witness :
    Check.runVerdict ⟨["p"], [("q", ⟨[]⟩)]⟩ ⟨["p", "q"], []⟩ = some "unsafe" ∧
    Check.runVerdict ⟨["p", "q"], []⟩ ⟨["q"], [("p", ⟨[]⟩)]⟩ = some "might be unsafe" ∧
    ("p" ∈ (⟨["p"], [("q", ⟨[]⟩)]⟩ : CheckRes).okay ∧
      "p" ∈ ([("p", (⟨[]⟩ : Cex)), ("q", ⟨[]⟩)]).map Prod.fst) :=
  ⟨(claim_c3_verdict_partition ⟨["p"], [("q", ⟨[]⟩)]⟩ ⟨["p", "q"], []⟩ ⟨[], []⟩).1 rfl,
    (claim_c3_verdict_partition ⟨["p", "q"], []⟩ ⟨["q"], [("p", ⟨[]⟩)]⟩ ⟨[], []⟩).2.1 rfl rfl,
    ((claim_c3_verdict_partition ⟨["p"], [("q", ⟨[]⟩)]⟩ ⟨[], [("p", ⟨[]⟩), ("q", ⟨[]⟩)]⟩
        ⟨["p"], [("q", ⟨[]⟩)]⟩).2.2 rfl "p").mp (by decide)⟩


/-- A failed first step makes `seqA` return its error with its actions. -/
theorem seqA_error {α β : Type} (x : Except Error α × List RunAct)
    (f : α → Except Error β × List RunAct) (e : Error) (hx : x.1 = Except.error e) :
    seqA x f = (Except.error e, x.2) := by
  unfold seqA
  rw [hx]

/-- Splitting a membership in the actions of a `seqA` composition. -/
theorem seqA_mem {α β : Type} (x : Except Error α × List RunAct)
    (f : α → Except Error β × List RunAct) (a : RunAct) (ha : a ∈ (seqA x f).2) :
    a ∈ x.2 ∨ ∃ v, x.1 = Except.ok v ∧ a ∈ (f v).2 := by
  unfold seqA at ha
  cases hx : x.1 with
  | error e =>
    rw [hx] at ha
    exact Or.inl ha
  | ok v =>
    rw [hx] at ha
    rcases List.mem_append.mp ha with h | h
    · exact Or.inl h
    · exact Or.inr ⟨v, rfl, h⟩

/-- A successful `seqA` composition means both steps succeeded in order. -/
theorem seqA_ok_inv {α β : Type} (x : Except Error α × List RunAct)
    (f : α → Except Error β × List RunAct) (b : β)
    (h : (seqA x f).1 = Except.ok b) :
    ∃ v, x.1 = Except.ok v ∧ (f v).1 = Except.ok b := by
  unfold seqA at h
  cases hx : x.1 with
  | error e =>
    rw [hx] at h
    simp at h
  | ok v =>
    rw [hx] at h
    exact ⟨v, rfl, h⟩

/-- The actions of `Check.new` are the file read and the parse. -/
theorem Check.new_actions (w : World) (input : String) :
    ∀ a ∈ (Check.new w input).2, a = RunAct.readFile input ∨ a = RunAct.parseSys := by
  intro a ha
  unfold Check.new at ha
  rcases seqA_mem _ _ a ha with h | ⟨txt, _, h⟩
  · simp [liftE] at h
    exact Or.inl h
  · simp [liftE] at h
    exact Or.inr h

/-- A successful `Check.new` comes from a successful read and a successful
parse of the read text. -/
theorem Check.new_ok (w : World) (input : String) (sys : Sys)
    (h : (Check.new w input).1 = Except.ok sys) :
    ∃ txt, w.readFile input = Except.ok txt ∧ w.parseSys txt = Except.ok sys := by
  unfold Check.new at h
  obtain ⟨txt, h1, h2⟩ := seqA_ok_inv _ _ _ h
  exact ⟨txt, h1, h2⟩

/-- The actions of `Check.run` are the two checker sessions and possibly a
verdict report. -/
theorem Check.run_actions (w : World) (sys : Sys) :
    ∀ a ∈ (Check.run w sys).2, a = RunAct.newSolverSession "base" ∨
      a = RunAct.newSolverSession "step" ∨ ∃ msg, a = RunAct.report msg := by
  intro a ha
  unfold Check.run at ha
  rcases seqA_mem _ _ a ha with h | ⟨b, _, h⟩
  · simp [liftC] at h
    exact Or.inl h
  · rcases seqA_mem _ _ a h with h2 | ⟨s, _, h2⟩
    · simp [liftC] at h2
      exact Or.inr (Or.inl h2)
    · cases hv : Check.runVerdict b s with
      | none => simp [hv] at h2
      | some msg =>
        simp [hv] at h2
        exact Or.inr (Or.inr ⟨msg, h2⟩)

/-- The actions of `Check.bmc`: at most one BMC session plus the BMC run on
the seed computed by `Check.bmcSeed`. -/
theorem Check.bmc_actions (w : World) (max : Option Nat) (base : CheckRes)
    (step : Option CheckRes) :
    ∀ a ∈ (Check.bmc w max base step).2,
      a = RunAct.newSolverSession "bmc" ∨
      ∃ seed, Check.bmcSeed base step = Except.ok seed ∧ a = RunAct.bmcRun seed := by
  intro a ha
  unfold Check.bmc at ha
  cases hs : Check.bmcSeed base step with
  | error e => simp [hs] at ha
  | ok res =>
    simp only [hs] at ha
    cases hf : res.all_falsified with
    | true => simp [hf] at ha
    | false =>
      simp only [hf, Bool.false_eq_true, if_false] at ha
      cases hb : w.bmcRun max res with
      | error e =>
        simp [hb] at ha
        rcases ha with h | h
        · exact Or.inl h
        · exact Or.inr ⟨res, rfl, h⟩
      | ok r2 =>
        simp [hb] at ha
        rcases ha with h | h
        · exact Or.inl h
        · exact Or.inr ⟨res, rfl, h⟩

/-- The SMT-log step only ever creates a directory. -/
theorem Run.smtLogStep_actions (w : World) (lg : Option String) :
    ∀ a ∈ (Run.smtLogStep w lg).2, ∃ dd, a = RunAct.createDir dd := by
  intro a ha
  unfold Run.smtLogStep at ha
  cases lg with
  | none => simp at ha
  | some d =>
    cases hp : w.pathExists d with
    | true => simp [hp] at ha
    | false =>
      simp only [hp, Bool.false_eq_true, if_false] at ha
      cases hc : w.createDirAll d with
      | ok u =>
        simp [hc] at ha
        exact ⟨d, ha⟩
      | error e =>
        simp [hc] at ha
        exact ⟨d, ha⟩

/-- When the configured directory is missing, the SMT-log step's only action
is the creation attempt, whatever its outcome. -/
theorem Run.smtLogStep_missing (w : World) (d : String) (hp : w.pathExists d = false) :
    (Run.smtLogStep w (some d)).2 = [RunAct.createDir d] := by
  unfold Run.smtLogStep
  simp only [hp, Bool.false_eq_true, if_false]
  cases hc : w.createDirAll d <;> rfl

/-- When the configured directory already exists, the SMT-log step does
nothing. -/
theorem Run.smtLogStep_exists (w : World) (d : String) (hp : w.pathExists d = true) :
    Run.smtLogStep w (some d) = (Except.ok (), []) := by
  unfold Run.smtLogStep
  simp [hp]

/-- With induction on, the induction step's actions are those of
`Check.run`. -/
theorem Run.inductionStep_true_actions (w : World) (sys : Sys) :
    (Run.inductionStep w sys true).2 = (Check.run w sys).2 := by
  unfold Run.inductionStep seqA
  cases hx : (Check.run w sys).1 with
  | error e => rfl
  | ok bs => simp

/-- Any action of the induction step implies induction was on and the action
is a base or step session or a report. -/
theorem Run.inductionStep_actions (w : World) (sys : Sys) (ind : Bool) :
    ∀ a ∈ (Run.inductionStep w sys ind).2,
      ind = true ∧ (a = RunAct.newSolverSession "base" ∨
        a = RunAct.newSolverSession "step" ∨ ∃ msg, a = RunAct.report msg) := by
  intro a ha
  cases ind with
  | false =>
    have h0 : (Run.inductionStep w sys false).2 = [] := rfl
    rw [h0] at ha
    simp at ha
  | true =>
    rw [Run.inductionStep_true_actions w sys] at ha
    exact ⟨rfl, Check.run_actions w sys a ha⟩

/-- The actions of the check mode start with the SMT-log step's actions. -/
theorem Run.checkMode_actions_split (w : World) (input : String) (lg : Option String)
    (ind bf : Bool) (bm : Option Nat) :
    ∃ rest, (Run.checkMode w input lg ind bf bm).2 = (Run.smtLogStep w lg).2 ++ rest := by
  unfold Run.checkMode
  unfold seqA
  cases hx : (Run.smtLogStep w lg).1 with
  | error e => exact ⟨[], by simp⟩
  | ok u => exact ⟨_, rfl⟩

/-- Shape of every action the check mode can emit, with enough information
to recover where it came from. -/
theorem Run.checkMode_actions_shape (w : World) (input : String) (lg : Option String)
    (ind bf : Bool) (bm : Option Nat) :
    ∀ a ∈ (Run.checkMode w input lg ind bf bm).2,
      (a ∈ (Run.smtLogStep w lg).2 ∧ ∃ dd, a = RunAct.createDir dd) ∨
      a = RunAct.readFile input ∨ a = RunAct.parseSys ∨
      (ind = true ∧ (a = RunAct.newSolverSession "base" ∨
        a = RunAct.newSolverSession "step" ∨ ∃ msg, a = RunAct.report msg)) ∨
      a = RunAct.newSolverSession "bmc" ∨
      (∃ txt sys bs seed,
        w.readFile input = Except.ok txt ∧ w.parseSys txt = Except.ok sys ∧
        (Run.inductionStep w sys ind).1 = Except.ok bs ∧
        Check.bmcSeed bs.1 bs.2 = Except.ok seed ∧ a = RunAct.bmcRun seed) := by
  intro a ha
  unfold Run.checkMode at ha
  rcases seqA_mem _ _ a ha with h | ⟨u, hu, h⟩
  · exact Or.inl ⟨h, Run.smtLogStep_actions w lg a h⟩
  · rcases seqA_mem _ _ a h with h2 | ⟨sys, hsys, h2⟩
    · rcases Check.new_actions w input a h2 with h' | h'
      · exact Or.inr (Or.inl h')
      · exact Or.inr (Or.inr (Or.inl h'))
    · rcases seqA_mem _ _ a h2 with h3 | ⟨bs, hbs, h3⟩
      · exact Or.inr (Or.inr (Or.inr (Or.inl
          (Run.inductionStep_actions w sys ind a h3))))
      · cases bf with
        | false => simp at h3
        | true =>
          rcases Check.bmc_actions w bm bs.1 bs.2 a h3 with h' | ⟨seed, hseed, h'⟩
          · exact Or.inr (Or.inr (Or.inr (Or.inr (Or.inl h'))))
          · obtain ⟨txt, hr, hp2⟩ := Check.new_ok w input sys hsys
            exact Or.inr (Or.inr (Or.inr (Or.inr (Or.inr
              ⟨txt, sys, bs, seed, hr, hp2, hbs, hseed, h'⟩))))

/-- In parse mode, the actions are exactly those of `Check.new`. -/
theorem Run.run_parse_actions (w : World) (input : String) :
    (Run.run w (Mode.parse input)).2 = (Check.new w input).2 := by
  show (seqA (Check.new w input) (fun _ => (Except.ok (), []))).2 = (Check.new w input).2
  unfold seqA
  cases hx : (Check.new w input).1 with
  | error e => rfl
  | ok sys => simp [hx]

/-- C5: the `bmc` subcommand runs BMC alone: `try_bmc` always yields
`Mode::Check` with `induction = false` and `bmc = true`; `try_check` always
yields `induction = true`; and a run with `induction = false` creates no base
or step solver session and, whenever it runs BMC, seeds it with the fresh
result of the parsed system, in which every PO is still open. -/
theorem claim_c5_bmc_subcommand :
    (∀ (t : Option String) (m : BmcMatches) (mode : Mode),
      cla.try_bmc t m = Except.ok mode →
      ∃ l bm, mode = Mode.check m.sys l false true bm) ∧
    (∀ (t : Option String) (m : CheckMatches) (mode : Mode),
      cla.try_check t m = Except.ok mode →
      ∃ l b bm, mode = Mode.check m.sys l true b bm) ∧
    (∀ (w : World) (input : String) (lg : Option String) (bf : Bool) (bm : Option Nat),
      RunAct.newSolverSession "base" ∉ (Run.run w (Mode.check input lg false bf bm)).2 ∧
      RunAct.newSolverSession "step" ∉ (Run.run w (Mode.check input lg false bf bm)).2 ∧
      (∀ seed, RunAct.bmcRun seed ∈ (Run.run w (Mode.check input lg false bf bm)).2 →
        ∃ txt sys, w.readFile input = Except.ok txt ∧ w.parseSys txt = Except.ok sys ∧
          seed = CheckRes.new sys)) := by
  refine ⟨?_, ?_, ?_⟩
  · intro t m mode h
    unfold cla.try_bmc at h
    cases hg : cla.get_bmc_max m.bmc_max_val with
    | error e => rw [hg] at h; cases h
    | ok bm =>
      rw [hg] at h
      simp only [Except.ok.injEq] at h
      exact ⟨(match m.smt_log with | some l => some l | none => t), bm, h.symm⟩
  · intro t m mode h
    unfold cla.try_check at h
    cases hg : cla.get_bmc_max m.bmc_max_val with
    | error e => rw [hg] at h; cases h
    | ok bm =>
      rw [hg] at h
      simp only [Except.ok.injEq] at h
      exact ⟨(match m.smt_log with | some l => some l | none => t),
        m.bmc_flag || m.bmc_max_val.isSome, bm, h.symm⟩
  · intro w input lg bf bm
    refine ⟨?_, ?_, ?_⟩
    · intro hmem
      rcases Run.checkMode_actions_shape w input lg false bf bm _ hmem with
        ⟨_, dd, heq⟩ | h | h | ⟨hi, _⟩ | h | ⟨t1, s1, bs, sd, _, _, _, _, h⟩
      · simp at heq
      · simp at h
      · simp at h
      · cases hi
      · simp at h
      · simp at h
    · intro hmem
      rcases Run.checkMode_actions_shape w input lg false bf bm _ hmem with
        ⟨_, dd, heq⟩ | h | h | ⟨hi, _⟩ | h | ⟨t1, s1, bs, sd, _, _, _, _, h⟩
      · simp at heq
      · simp at h
      · simp at h
      · cases hi
      · simp at h
      · simp at h
    · intro seed hmem
      rcases Run.checkMode_actions_shape w input lg false bf bm _ hmem with
        ⟨_, dd, heq⟩ | h | h | ⟨hi, _⟩ | h |
        ⟨txt, sys, bs, sd, hr, hp2, hbs, hsd, heq⟩
      · simp at heq
      · simp at h
      · simp at h
      · cases hi
      · simp at h
      · have hbs' : Except.ok (CheckRes.new sys, (none : Option CheckRes)) =
            Except.ok bs := hbs
        injection hbs' with h3
        have hbs2 : bs = (CheckRes.new sys, none) := h3.symm
        subst hbs2
        have hsd' : Except.ok (CheckRes.new sys) = Except.ok sd := hsd
        injection hsd' with h4
        injection heq with h5
        exact ⟨txt, sys, hr, hp2, h5.trans h4.symm⟩

/-- Witness for C5: the `bmc` subcommand matches produce induction-off BMC-on
modes, the `check` subcommand matches produce induction-on modes, and a
concrete induction-off run seeds BMC with the all-open fresh result. -/
theorem claim_c5_bmc_subcommand_witness :
    (∃ l bm, Mode.check "sys.mkn" none false true none =
      Mode.check "sys.mkn" l false true bm) ∧
    (∃ l b bm, Mode.check "sys.mkn" none true false none =
      Mode.check "sys.mkn" l true b bm) ∧
    (∃ txt sys, World.allOk.readFile "sys.mkn" = Except.ok txt ∧
      World.allOk.parseSys txt = Except.ok sys ∧
      (⟨["p"], []⟩ : CheckRes) = CheckRes.new sys) :=
  ⟨claim_c5_bmc_subcommand.1 none ⟨"sys.mkn", none, none⟩
      (Mode.check "sys.mkn" none false true none) rfl,
    claim_c5_bmc_subcommand.2.1 none ⟨"sys.mkn", none, false, none⟩
      (Mode.check "sys.mkn" none true false none) rfl,
    (claim_c5_bmc_subcommand.2.2 World.allOk "sys.mkn" none true none).2.2
      ⟨["p"], []⟩ (by decide)⟩

/-- C6: in parse mode, `Run::run` constructs `Check::new` (reading and
parsing the input) and returns `Ok` without creating any solver session: no
session action is ever emitted, a successful read and parse yields `Ok ()`
with only the read and parse actions, a parse failure propagates the parse
error, and a read failure propagates the I/O error. -/
theorem claim_c6_parse_mode (w : World) (input : String) :
    (∀ c, RunAct.newSolverSession c ∉ (Run.run w (Mode.parse input)).2) ∧
    (∀ txt sys, w.readFile input = Except.ok txt → w.parseSys txt = Except.ok sys →
      Run.run w (Mode.parse input) =
        (Except.ok (), [RunAct.readFile input, RunAct.parseSys])) ∧
    (∀ txt e, w.readFile input = Except.ok txt → w.parseSys txt = Except.error e →
      Run.run w (Mode.parse input) =
        (Except.error e, [RunAct.readFile input, RunAct.parseSys])) ∧
    (∀ e, w.readFile input = Except.error e →
      Run.run w (Mode.parse input) = (Except.error e, [RunAct.readFile input])) := by
  refine ⟨?_, ?_, ?_, ?_⟩
  · intro c hmem
    rw [Run.run_parse_actions w input] at hmem
    rcases Check.new_actions w input _ hmem with h | h <;> simp at h
  · intro txt sys hr hp
    show seqA (Check.new w input) (fun _ => (Except.ok (), [])) = _
    unfold Check.new
    simp [seqA, liftE, hr, hp]
  · intro txt e hr hp
    show seqA (Check.new w input) (fun _ => (Except.ok (), [])) = _
    unfold Check.new
    simp [seqA, liftE, hr, hp]
  · intro e hr
    show seqA (Check.new w input) (fun _ => (Except.ok (), [])) = _
    unfold Check.new
    simp [seqA, liftE, hr]

/-- Witness for C6: the three outcomes at concrete worlds. -/
theorem claim_c6_parse_mode_witness :
    Run.run World.allOk (Mode.parse "sys.mkn") =
      (Except.ok (), [RunAct.readFile "sys.mkn", RunAct.parseSys]) ∧
    Run.run World.parseFails (Mode.parse "sys.mkn") =
      (Except.error (Error.parse 1 2 "init bad" "unexpected token"),
        [RunAct.readFile "sys.mkn", RunAct.parseSys]) ∧
    Run.run World.readFails (Mode.parse "sys.mkn") =
      (Except.error (Error.io "no such file"), [RunAct.readFile "sys.mkn"]) :=
  ⟨(claim_c6_parse_mode World.allOk "sys.mkn").2.1 "demo system text" ⟨["p"]⟩ rfl rfl,
    (claim_c6_parse_mode World.parseFails "sys.mkn").2.2.1 "demo system text"
      (Error.parse 1 2 "init bad" "unexpected token") rfl rfl,
    (claim_c6_parse_mode World.readFails "sys.mkn").2.2.2 (Error.io "no such file") rfl⟩

/-- C7: with an SMT log directory configured for the check mode and missing
on disk, the run's very first action is its recursive creation, before any
file or solver work; a creation failure aborts the run with the chained
context message and the creation attempt as only action (so no check is
run); and when the directory already exists no creation is attempted. -/
theorem claim_c7_smt_log_dir (w : World) (input d : String) (ind bf : Bool)
    (bm : Option Nat) :
    (w.pathExists d = false →
      ((Run.run w (Mode.check input (some d) ind bf bm)).2).head? =
        some (RunAct.createDir d)) ∧
    (∀ e, w.pathExists d = false → w.createDirAll d = Except.error e →
      Run.run w (Mode.check input (some d) ind bf bm) =
        (Except.error (Error.context
          ("while recursively creating SMT log directory `" ++ d ++ "`") e),
          [RunAct.createDir d])) ∧
    (w.pathExists d = true →
      RunAct.createDir d ∉ (Run.run w (Mode.check input (some d) ind bf bm)).2) := by
  refine ⟨?_, ?_, ?_⟩
  · intro hp
    obtain ⟨rest, hsplit⟩ := Run.checkMode_actions_split w input (some d) ind bf bm
    have h2 : (Run.run w (Mode.check input (some d) ind bf bm)).2 =
        RunAct.createDir d :: rest := by
      show (Run.checkMode w input (some d) ind bf bm).2 = _
      rw [hsplit, Run.smtLogStep_missing w d hp]
      rfl
    rw [h2]
    rfl
  · intro e hp hc
    have h1 : Run.smtLogStep w (some d) =
        (Except.error (Error.context
          ("while recursively creating SMT log directory `" ++ d ++ "`") e),
          [RunAct.createDir d]) := by
      unfold Run.smtLogStep
      simp [hp, hc]
    show Run.checkMode w input (some d) ind bf bm = _
    unfold Run.checkMode
    rw [seqA_error _ _ _ (by rw [h1]), h1]
  · intro hp hmem
    rcases Run.checkMode_actions_shape w input (some d) ind bf bm _ hmem with
      ⟨hin, dd, heq⟩ | h | h | ⟨_, h⟩ | h | ⟨t1, s1, bs, sd, _, _, _, _, h⟩
    · rw [Run.smtLogStep_exists w d hp] at hin
      simp at hin
    · simp at h
    · simp at h
    · rcases h with h | h | ⟨msg, h⟩ <;> simp at h
    · simp at h
    · simp at h

/-- Witness for C7: with a missing directory and a failing creation the run
aborts with the chained message after the single creation attempt; with an
existing directory no creation action is emitted. -/
theorem claim_c7_smt_log_dir_witness :
    ((Run.run World.dirFails (Mode.check "sys.mkn" (some "logs") true false none)).2).head? =
      some (RunAct.createDir "logs") ∧
    Run.run World.dirFails (Mode.check "sys.mkn" (some "logs") true false none) =
      (Except.error (Error.context
        ("while recursively creating SMT log directory `" ++ "logs" ++ "`")
        (Error.io "permission denied")), [RunAct.createDir "logs"]) ∧
    RunAct.createDir "logs" ∉
      (Run.run World.allOk (Mode.check "sys.mkn" (some "logs") true false none)).2 :=
  ⟨(claim_c7_smt_log_dir World.dirFails "sys.mkn" "logs" true false none).1 rfl,
    (claim_c7_smt_log_dir World.dirFails "sys.mkn" "logs" true false none).2.1
      (Error.io "permission denied") rfl rfl,
    (claim_c7_smt_log_dir World.allOk "sys.mkn" "logs" true false none).2.2 rfl⟩
